import Mathlib

/-!
Verification of the StamFree speech-fluency analysis server
(`src/server/app.py`) against its natural-language specification.

Modelling conventions:
* numeric quantities (probabilities, RMS values, seconds) are rationals;
* Python strings are Lean `String`s;
* the external capabilities (the wav2vec model, Google speech-to-text,
  grapheme-to-phoneme, librosa feature extraction) appear as explicit
  function or value parameters of the embedded pipeline functions;
* Python's `None`-able booleans (`phoneme_match`) are `Option Bool`;
* exceptions crossing a boundary are `Except`.
-/

namespace StamFree

/-- Oracle result of `a == b` for characters used in substring scans. -/
abbrev chEq (a b : Char) : Bool := a == b

/-- `leadsWith l pat` is true when `pat` is an initial segment of `l`
(used to embed Python's substring test `pat in s`). -/
def leadsWith : List Char → List Char → Bool
  | _, [] => true
  | [], _ :: _ => false
  | a :: l, b :: m => chEq a b && leadsWith l m

/-- `containsSeq l pat`: `pat` occurs contiguously somewhere inside `l`. -/
def containsSeq : List Char → List Char → Bool
  | [], pat => pat.isEmpty
  | a :: rest, pat => leadsWith (a :: rest) pat || containsSeq rest pat

/-- Character-wise lower-casing (embeds Python's `str.lower()`). -/
def lowerStr (s : String) : String :=
  String.mk (s.toList.map Char.toLower)

/-- Character-wise strip of surrounding whitespace (embeds Python's
`str.strip()`). -/
def pyStrip (s : String) : String :=
  String.mk
    (((s.toList.dropWhile Char.isWhitespace).reverse.dropWhile
        Char.isWhitespace).reverse)

/-- Splitting a character list at every occurrence of `c` (embeds
Python's `str.split(c)`). -/
def splitChar (c : Char) : List Char → List (List Char)
  | [] => [[]]
  | a :: l =>
      let r := splitChar c l
      if a == c then [] :: r
      else
        match r with
        | [] => [[a]]
        | h :: t => (a :: h) :: t

/-- Embeds Python's `s.split(c)` as a list of strings. -/
def pySplit (c : Char) (s : String) : List String :=
  (splitChar c s.toList).map String.mk

/-- Embeds Python's `pat in label.lower()`. -/
def labelContains (label pat : String) : Bool :=
  containsSeq (lowerStr label).toList pat.toList

/-- Embeds Python's `str.capitalize()`: first character upper-cased,
the remainder lower-cased. -/
def pyCapitalize (s : String) : String :=
  match s.toList with
  | [] => ""
  | a :: l => String.mk (a.toUpper :: l.map Char.toLower)

/-- The apostrophe character, written via its code point. -/
def apostropheStr : String := String.singleton (Char.ofNat 39)

/-- `PHONEME_MAP` from app.py: ARPAbet code → kid-friendly phoneme. -/
def PHONEME_MAP : List (String × String) :=
  [("AA", "a"), ("AE", "a"), ("AH", "u"), ("AO", "aw"), ("AW", "ow"),
   ("AY", "i"), ("B", "b"), ("CH", "ch"), ("D", "d"), ("DH", "th"),
   ("EH", "e"), ("ER", "er"), ("EY", "a"), ("F", "f"), ("G", "g"),
   ("HH", "h"), ("IH", "i"), ("IY", "ee"), ("JH", "j"), ("K", "k"),
   ("L", "l"), ("M", "m"), ("N", "n"), ("NG", "ng"), ("OW", "o"),
   ("OY", "oy"), ("P", "p"), ("R", "r"), ("S", "s"), ("SH", "sh"),
   ("T", "t"), ("TH", "th"), ("UH", "u"), ("UW", "oo"), ("V", "v"),
   ("W", "w"), ("Y", "y"), ("Z", "z"), ("ZH", "zh")]

/-- Embeds `PHONEME_MAP.get(raw, raw.lower())`. -/
def mapPhoneme (raw : String) : String :=
  match PHONEME_MAP.lookup raw with
  | some v => v
  | none => lowerStr raw

/-- Embeds `''.join([i for i in p if not i.isdigit()])`. -/
def stripDigits (s : String) : String :=
  String.mk (s.toList.filter (fun c => !c.isDigit))

/-- Embeds `[p for p in phonemes if p not in [" ", "'"]]`. -/
def cleanPhonemes (ps : List String) : List String :=
  ps.filter (fun p => p ≠ " " && p ≠ apostropheStr)

/-- A Google STT word with timing and confidence
(fields `word`/`start`/`end`/`confidence` in app.py; `end` is spelled
`endTime` because `end` is a Lean keyword). -/
structure Word where
  word : String
  start : ℚ
  endTime : ℚ
  confidence : ℚ
  deriving DecidableEq, Repr

instance : Inhabited Word := ⟨⟨"", 0, 0, 0⟩⟩

/-- Embeds `get_google_transcript`: the Google call is an external
capability that may fail; the function catches every failure and
returns an empty transcript and word list (fail-soft). -/
def getGoogleTranscript (sttBackend : Except Unit (String × List Word)) :
    String × List Word :=
  match sttBackend with
  | .ok r => r
  | .error _ => ("", [])

/-- First index/value of the maximum of a probability list (embeds
`torch.max(probs, dim=-1)`); auxiliary accumulator form. -/
def argmaxAux : List ℚ → Nat → Nat × ℚ → Nat × ℚ
  | [], _, best => best
  | a :: l, i, (bi, bv) =>
      if bv < a then argmaxAux l (i + 1) (i, a) else argmaxAux l (i + 1) (bi, bv)

/-- First index/value of the maximum of a probability list. -/
def argmaxPair : List ℚ → Nat × ℚ
  | [] => (0, 0)
  | a :: l => argmaxAux l 1 (0, a)

/-- Embeds `predict_file` (app.py lines 91-120): the audio is truncated
to a 3-second context (`max_length=16000*3`), the external
model+softmax capability `modelProbs` is invoked exactly once, and the
winner of `torch.max` is mapped through `id2label`.  The trailing `Nat`
counts model invocations. -/
def predict_file (id2label : Nat → String) (modelProbs : List ℚ → List ℚ)
    (audio : List ℚ) : (String × ℚ) × Nat :=
  let probs := modelProbs (audio.take (16000 * 3))
  let best := argmaxPair probs
  ((id2label best.1, best.2), 1)

/-- Clip duration in seconds at the fixed 16 kHz sample rate. -/
def clipDurationSec (audio : List ℚ) : ℚ :=
  (audio.length : ℚ) / 16000

/-- Embeds the label-to-type logic of `analyze_audio` (lines 288-297):
`Fluent` when the label contains "fluent", otherwise the capitalized
part after the underscore (or the whole label capitalized). -/
def stutterTypeOf (label : String) : String :=
  if labelContains label "fluent" then "Fluent"
  else if label.toList.contains '_' then pyCapitalize ((pySplit '_' label).getD 1 "")
  else pyCapitalize label

/-- The maximum probability over the slots whose label does not contain
"fluent" (the spec's "maximum non-Fluent specialist probability"). -/
def maxNonFluentProb (id2label : Nat → String) (probs : List ℚ) : ℚ :=
  ((List.range probs.length).filter
      (fun i => !(labelContains (id2label i) "fluent"))).foldl
    (fun m i => max m (probs.getD i 0)) 0

/-- Embeds `culprit = min(words, key=lambda w: w['confidence'])`:
Python's `min` keeps the first element among equal keys. -/
def minByConf : List Word → Option Word
  | [] => none
  | w :: l =>
      some (l.foldl (fun best x => if x.confidence < best.confidence then x else best) w)

/-- The culprit word of `analyze_audio` (line 305). -/
def culpritWord (words : List Word) : Option Word :=
  minByConf words

/-- Response body of the `/analyze_audio` endpoint. -/
structure AnalyzeResponse where
  is_stutter : Bool
  stutter_score : ℚ
  type : String
  problem_phoneme : Option String
  transcript : String
  deriving DecidableEq, Repr

/-- Embeds the body of `analyze_audio` (lines 284-320) after a
successful classification: label-derived stutter flags, culprit-word
phoneme attribution through the external `g2pf` capability. -/
def analyzeAudioBody (label : String) (score : ℚ)
    (sttBackend : Except Unit (String × List Word))
    (g2pf : String → List String) : AnalyzeResponse :=
  let is_stutter := !(labelContains label "fluent")
  let res := getGoogleTranscript sttBackend
  let final_phoneme : Option String :=
    if is_stutter && !res.2.isEmpty then
      match culpritWord res.2 with
      | some culprit =>
          match cleanPhonemes (g2pf culprit.word) with
          | [] => none
          | p :: _ => some (mapPhoneme (stripDigits p))
      | none => none
    else none
  { is_stutter := is_stutter
    stutter_score := score
    type := stutterTypeOf label
    problem_phoneme := final_phoneme
    transcript := res.1 }

/-- Embeds the `/analyze_audio` handler's control flow: `predict_file`
is called with no surrounding `except` clause (the handler only has a
`finally` for file cleanup), so a classifier exception propagates. -/
def analyze_audio (classifier : Except String (String × ℚ))
    (sttBackend : Except Unit (String × List Word))
    (g2pf : String → List String) : Except String AnalyzeResponse :=
  match classifier with
  | .error e => .error e
  | .ok (label, score) => .ok (analyzeAudioBody label score sttBackend g2pf)

/-- Round half to even (Python's `round` on exact values). -/
def roundHalfEven (q : ℚ) : ℤ :=
  let f := ⌊q⌋
  let r := q - f
  if r < 1 / 2 then f
  else if 1 / 2 < r then f + 1
  else if f % 2 = 0 then f else f + 1

/-- Embeds Python's `round(x, 1)`. -/
def roundTo1 (q : ℚ) : ℚ := (roundHalfEven (10 * q) : ℚ) / 10

/-- Embeds Python's `round(x, 3)`. -/
def roundTo3 (q : ℚ) : ℚ := (roundHalfEven (1000 * q) : ℚ) / 1000

/-- Embeds `calculate_wpm` (lines 158-168): zero for fewer than two
words or a non-positive span, otherwise words-per-minute rounded to one
decimal. -/
def calculate_wpm (words : List Word) : ℚ :=
  if words.length < 2 then 0
  else
    let first := words.headD default
    let last := words.getLastD default
    let duration := last.endTime - first.start
    if duration ≤ 0 then 0
    else roundTo1 ((words.length : ℚ) / duration * 60)

/-- Embeds the Turtle game rule `wpm < 120 and wpm > 0` (line 351). -/
def turtleGamePass (wpm : ℚ) : Bool :=
  decide (wpm < 120) && decide (wpm > 0)

/-- Result of `detect_breath`. -/
structure BreathResult where
  breath_detected : Bool
  amplitude_onset : ℚ
  deriving DecidableEq, Repr

/-- Embeds the scan loop of `detect_breath` (lines 241-253) over the
frame-wise RMS list.  `silCount` is `silence_count` and `hasSil` is
`has_silence`.  In the source, the qualifying branch is guarded by
`if i < len(rms)`, which always holds because `i` enumerates `rms`
itself; here the current frame `r` is `rms[i]`, so the guard is
satisfied by construction and the branch returns. -/
def detectBreathLoop (fd thr ms : ℚ) : List ℚ → Nat → Bool → BreathResult
  | [], _, hasSil => ⟨hasSil, 0⟩
  | r :: rest, silCount, hasSil =>
      if r < thr then detectBreathLoop fd thr ms rest (silCount + 1) hasSil
      else if 0 < silCount then
        if ms ≤ (silCount : ℚ) * fd then ⟨true, roundTo3 r⟩
        else detectBreathLoop fd thr ms rest 0 hasSil
      else detectBreathLoop fd thr ms rest 0 hasSil

/-- Embeds `detect_breath` (lines 232-255) with its default parameters
`silence_threshold=0.01`, `min_silence=0.3`.  `fd` is the
frame duration `len(audio)/sr/len(rms)` and `rms` the librosa RMS
frames, both produced by external numeric capabilities. -/
def detect_breath (fd : ℚ) (rms : List ℚ) : BreathResult :=
  detectBreathLoop fd (1 / 100) (3 / 10) rms 0 false

/-- Specification-side predicate (from §4.5 of the spec): a contiguous
silent run (RMS below `thr`) spanning at least `ms` seconds is
immediately followed by a non-silent frame. -/
def qualifyingTransition (fd thr ms : ℚ) (rms : List ℚ) : Prop :=
  ∃ pre s r post, rms = pre ++ s ++ r :: post ∧ (∀ x ∈ s, x < thr) ∧
    ¬(r < thr) ∧ ms ≤ (s.length : ℚ) * fd ∧ 0 < s.length

/-- The `voiced_targets` set of `analyze_snake` (line 438). -/
def voicedTargets : List String :=
  ["a", "e", "i", "o", "u", "oo", "ee", "er", "m", "n", "l", "r", "w",
   "y", "ng", "v", "z", "j"]

/-- Embeds the phoneme-validation block of `analyze_snake`
(lines 404-434).  `tp` is the `targetPhoneme` form field (`none` when
absent; Python's truthiness also skips the block for `""`).  When STT
found words, the match is whether any word's cleaned phonemes map to
the target; when STT found no words the result is indeterminate if
voicing was detected, else a confirmed mismatch. -/
def computePhonemeMatch (g2pf : String → List String) (tp : Option String)
    (voiced : Bool) (sttBackend : Except Unit (String × List Word)) : Option Bool :=
  match tp with
  | none => none
  | some t =>
      if t = "" then none
      else
        let words := (getGoogleTranscript sttBackend).2
        if !words.isEmpty then
          let target := lowerStr (pyStrip t)
          some (words.any (fun w =>
            (cleanPhonemes (g2pf w.word)).any (fun p =>
              lowerStr (mapPhoneme (stripDigits p)) == target)))
        else if voiced then none
        else some false

/-- Embeds the anti-blow override of `analyze_snake` (lines 436-449):
for a voiced target, when neither voicing, nor a model score above 0.6,
nor a confirmed STT match suggests speech, an indeterminate
`phoneme_match` is downgraded to `false`. -/
def applyAntiBlow (tp : Option String) (voiced : Bool) (score : ℚ)
    (pm : Option Bool) : Option Bool :=
  match tp with
  | none => pm
  | some t =>
      if t = "" then pm
      else if voicedTargets.contains (lowerStr (pyStrip t)) then
        let speechLikely := voiced || decide (score > 3 / 5) || (pm == some true)
        if !speechLikely && (pm == some false) then pm
        else if !speechLikely && (pm == none) then some false
        else pm
      else pm

/-- Specification-side condition (from §4.6 of the spec) under which the
anti-noise override may fire: the target is a non-empty member of the
voiced set and none of voicing, model score above its floor, or a
confirmed STT match indicates speech. -/
def specNoiseOverrideCondition (tp : Option String) (voiced : Bool)
    (score : ℚ) : Bool :=
  match tp with
  | none => false
  | some t =>
      !(t == "") && voicedTargets.contains (lowerStr (pyStrip t)) && !voiced &&
        !(decide (score > 3 / 5))

/-- Embeds the confidence computation of `analyze_snake`
(lines 461-473). -/
def snakeConfidence (gamePass clinicalPass : Bool) (pm : Option Bool)
    (voiced : Bool) : ℚ :=
  (if gamePass then 2 / 5 else 0) + (if clinicalPass then 3 / 10 else 0) +
    (match pm with
     | some true => 1 / 5
     | none => 3 / 20
     | some false => 0) +
    (if voiced then 1 / 10 else 0)

/-- The per-exercise hit messages of `get_feedback` (lines 258-263). -/
def hitMsgs (ex : String) : List String :=
  if ex = "turtle" then
    ["Great! You spoke slowly and fluently.", "Awesome slow speech!"]
  else if ex = "snake" then
    ["Smooth prolongation! The snake loved that.", "Excellent sustained sound!"]
  else if ex = "balloon" then
    ["Perfect easy onset!", "Great gentle start!"]
  else if ex = "onetap" then
    ["Fluent one-tap! Nailed it.", "Awesome! No bumps!"]
  else ["Great job!"]

/-- The per-exercise miss messages of `get_feedback` (lines 264-269). -/
def missMsg (ex : String) : String :=
  if ex = "turtle" then "Try to keep it smooth and steady!"
  else if ex = "snake" then "Try to make it one smooth sound."
  else if ex = "balloon" then "Remember: gentle breath, then soft start."
  else if ex = "onetap" then "Almost! Try to make it smoother."
  else "Give it another try!"

/-- Embeds `get_feedback` (lines 257-272): on a hit, `random.choice`
over the fixed hit-message list (the random draw is the explicit index
`randIdx`, reduced modulo the list length); on a miss, the fixed
coaching message. -/
def getFeedback (ex : String) (isHit : Bool) (randIdx : Nat) : String :=
  if isHit then (hitMsgs ex).getD (randIdx % (hitMsgs ex).length) "Great job!"
  else missMsg ex

/-- Response payload of the `/analyze/snake` endpoint
(lines 475-493). -/
structure SnakeResponse where
  sessionId : String
  isStutter : Bool
  stutterType : String
  confidence : ℚ
  speech_prob : ℚ
  starsAwarded : Nat
  feedback : String
  inferenceTimeMs : Nat
  duration_sec : ℚ
  amplitude_sustained : Bool
  game_pass : Bool
  repetition_detected : Bool
  clinical_pass : Bool
  phoneme_match : Option Bool
  voiced_detected : Bool
  progressionConfidence : ℚ
  deriving DecidableEq, Repr

/-- Embeds the verdict computation of `analyze_snake` (lines 389-494).
Deterministic external inputs: the classifier result (`label`,
`score`), the amplitude analyzer result (`ampDuration`,
`ampSustained`), the voicing analyzer result (`voiced`), the g2p
capability `g2pf`, the STT backend, and the form fields `tp`
(targetPhoneme) and `sessionIdForm`.  Per-request nondeterministic
inputs: the fresh uuid, the random feedback index, and the measured
inference time. -/
def analyzeSnake (label : String) (score : ℚ) (ampDuration : ℚ)
    (ampSustained : Bool) (voiced : Bool) (g2pf : String → List String)
    (tp : Option String) (sttBackend : Except Unit (String × List Word))
    (sessionIdForm : Option String) (uuid : String) (randIdx : Nat)
    (inferMs : Nat) : SnakeResponse :=
  let repetition_detected := labelContains label "repetition"
  let game_pass := ampSustained
  let clinical_pass := !repetition_detected
  let pm0 := computePhonemeMatch g2pf tp voiced sttBackend
  let pm := applyAntiBlow tp voiced score pm0
  let is_hit := game_pass && clinical_pass
  let is_stutter := repetition_detected || !game_pass
  let stutter_type :=
    if repetition_detected then "Repetition"
    else if !game_pass then "Block"
    else "Fluent"
  let stars : Nat :=
    if stutter_type = "Repetition" ∨ stutter_type = "Block" then 1 else 3
  let sessionId :=
    match sessionIdForm with
    | some s => if s = "" then uuid else s
    | none => uuid
  { sessionId := sessionId
    isStutter := is_stutter
    stutterType := stutter_type
    confidence := snakeConfidence game_pass clinical_pass pm voiced
    speech_prob := score
    starsAwarded := stars
    feedback := getFeedback "snake" is_hit randIdx
    inferenceTimeMs := inferMs
    duration_sec := ampDuration
    amplitude_sustained := ampSustained
    game_pass := game_pass
    repetition_detected := repetition_detected
    clinical_pass := clinical_pass
    phoneme_match := pm
    voiced_detected := voiced
    progressionConfidence := 3 / 4 }

/-- Concrete `id2label` table used in witnesses and counterexamples,
matching the label shape documented in app.py ("0_fluent", "1_block",
...). -/
def id2labelEx : Nat → String := fun i =>
  (["0_fluent", "1_block", "2_prolongation", "3_repetition"].getD i "")

/-- Concrete softmax output used in witnesses and counterexamples:
the winner is slot 3 ("3_repetition") with probability 7/20 = 0.35. -/
def probsEx : List ℚ := [3 / 10, 1 / 5, 3 / 20, 7 / 20]

/-- Concrete transcript word with high confidence 0.95, first in
list. -/
def wdA : Word := ⟨"hello", 0, 1 / 2, 19 / 20⟩

/-- Concrete transcript word with confidence 0.9, the global minimum of
`[wdA, wdB]`. -/
def wdB : Word := ⟨"world", 1 / 2, 1, 9 / 10⟩

/-- The worked Turtle example of the spec: three words spanning
2.5 seconds. -/
def turtleExampleWords : List Word :=
  [⟨"w1", 0, 1 / 2, 1⟩, ⟨"w2", 1 / 2, 1, 1⟩, ⟨"w3", 1, 5 / 2, 1⟩]

/-!  ## Theorems  -/

/-- Bounds for the Snake confidence sum: it always lies in `[0, 1]`. -/
theorem snakeConfidence_bounds (gp cp : Bool) (pm : Option Bool) (v : Bool) :
    0 ≤ snakeConfidence gp cp pm v ∧ snakeConfidence gp cp pm v ≤ 1 := by
  rcases pm with _ | b <;> [skip; cases b] <;> cases gp <;> cases cp <;>
    cases v <;> norm_num [snakeConfidence]

/-- C5: In the Snake exercise the anti-noise guard rewrites
`phoneme_match` exactly as follows: it maps an indeterminate match to a
hard mismatch precisely when the (non-empty) target phoneme is in the
voiced set and neither voicing, nor a model score above the 0.6 floor,
nor a confirmed STT match indicates speech; every other combination of
signals leaves `phoneme_match` unchanged, so this is the only case
where the guard flips a neutral component to failing.  The final
conjunct ties the guard to the `/analyze/snake` endpoint. -/
theorem c5_noise_guard_only_flips_indeterminate :
    ∀ (tp : Option String) (voiced : Bool) (score : ℚ) (pm : Option Bool),
      applyAntiBlow tp voiced score pm =
        (if specNoiseOverrideCondition tp voiced score && (pm == none) then
          some false
        else pm) ∧
      ∀ (label : String) (d : ℚ) (sus : Bool) (g2pf : String → List String)
        (stt : Except Unit (String × List Word)) (sf : Option String)
        (u : String) (i m : Nat),
        (analyzeSnake label score d sus voiced g2pf tp stt sf u i m).phoneme_match =
          applyAntiBlow tp voiced score (computePhonemeMatch g2pf tp voiced stt) := by
  intro tp voiced score pm
  refine ⟨?_, fun _ _ _ _ _ _ _ _ _ => rfl⟩
  cases tp with
  | none => simp [applyAntiBlow, specNoiseOverrideCondition]
  | some t =>
      simp only [applyAntiBlow, specNoiseOverrideCondition]
      by_cases ht : t = "" <;>
        by_cases hvt : voicedTargets.contains (lowerStr (pyStrip t)) = true <;>
        rcases pm with _ | b <;> cases voiced <;>
        by_cases hsc : score > 3 / 5 <;>
        simp_all

/-- C6: the Snake confidence reported by the endpoint equals the
weighted sum 0.4·game_pass + 0.3·clinical_pass + (0.2 for a confirmed
phoneme match, 0.15 for an indeterminate one, 0 for a confirmed
mismatch) + 0.1·voicing, and consequently always lies in `[0, 1]`. -/
theorem c6_snake_confidence_weighted_sum :
    ∀ (label : String) (score d : ℚ) (sus voiced : Bool)
      (g2pf : String → List String) (tp : Option String)
      (stt : Except Unit (String × List Word)) (sf : Option String)
      (u : String) (i m : Nat),
      (analyzeSnake label score d sus voiced g2pf tp stt sf u i m).confidence =
          (if (analyzeSnake label score d sus voiced g2pf tp stt sf u i m).game_pass
            then 2 / 5 else 0) +
          (if (analyzeSnake label score d sus voiced g2pf tp stt sf u i m).clinical_pass
            then 3 / 10 else 0) +
          (match (analyzeSnake label score d sus voiced g2pf tp stt sf u i m).phoneme_match with
            | some true => 1 / 5
            | none => 3 / 20
            | some false => 0) +
          (if (analyzeSnake label score d sus voiced g2pf tp stt sf u i m).voiced_detected
            then 1 / 10 else 0) ∧
      0 ≤ (analyzeSnake label score d sus voiced g2pf tp stt sf u i m).confidence ∧
      (analyzeSnake label score d sus voiced g2pf tp stt sf u i m).confidence ≤ 1 := by
  intro label score d sus voiced g2pf tp stt sf u i m
  refine ⟨rfl, ?_, ?_⟩
  · exact (snakeConfidence_bounds _ _ _ _).1
  · exact (snakeConfidence_bounds _ _ _ _).2

/-- C10: the Snake verdict labels: `stutterType` is "Repetition" when
the classifier label contains "repetition", otherwise "Block" when the
sustained-amplitude game check failed, otherwise "Fluent";
`starsAwarded` is 1 exactly for "Repetition"/"Block" and 3 otherwise;
`isStutter` holds exactly when repetition was detected or the game
check failed. -/
theorem c10_snake_stutter_type_stars :
    ∀ (label : String) (score d : ℚ) (sus voiced : Bool)
      (g2pf : String → List String) (tp : Option String)
      (stt : Except Unit (String × List Word)) (sf : Option String)
      (u : String) (i m : Nat),
      (analyzeSnake label score d sus voiced g2pf tp stt sf u i m).stutterType =
          (if labelContains label "repetition" then "Repetition"
            else if sus then "Fluent" else "Block") ∧
      (analyzeSnake label score d sus voiced g2pf tp stt sf u i m).starsAwarded =
          (if (analyzeSnake label score d sus voiced g2pf tp stt sf u i m).stutterType = "Repetition" ∨
              (analyzeSnake label score d sus voiced g2pf tp stt sf u i m).stutterType = "Block"
            then 1 else 3) ∧
      ((analyzeSnake label score d sus voiced g2pf tp stt sf u i m).starsAwarded = 1 ↔
        ((analyzeSnake label score d sus voiced g2pf tp stt sf u i m).stutterType = "Repetition" ∨
          (analyzeSnake label score d sus voiced g2pf tp stt sf u i m).stutterType = "Block")) ∧
      (analyzeSnake label score d sus voiced g2pf tp stt sf u i m).isStutter =
          (labelContains label "repetition" || !sus) := by
  intro label score d sus voiced g2pf tp stt sf u i m
  cases h : labelContains label "repetition" <;> cases sus <;>
    simp [analyzeSnake, h,
      show ("Fluent" : String) ≠ "Repetition" from by decide,
      show ("Fluent" : String) ≠ "Block" from by decide,
      show ("Block" : String) ≠ "Repetition" from by decide,
      show ("Block" : String) = "Block" from rfl,
      show ("Repetition" : String) = "Repetition" from rfl]

/-- C1 counterexample: a softmax output whose arg-max winner is
"3_repetition" with probability 0.35 — every non-Fluent probability is
below the alleged 0.45 floor — yet the `/analyze_audio` pipeline reports
type "Repetition", not "Block": no low-confidence Block fallback exists
in the code. -/
theorem c1_counterexample :
    maxNonFluentProb id2labelEx probsEx < 9 / 20 ∧
    (analyzeAudioBody (predict_file id2labelEx (fun _ => probsEx) [0]).1.1
        (predict_file id2labelEx (fun _ => probsEx) [0]).1.2
        (.ok ("", [])) (fun _ => [])).type = "Repetition" ∧
    (analyzeAudioBody (predict_file id2labelEx (fun _ => probsEx) [0]).1.1
        (predict_file id2labelEx (fun _ => probsEx) [0]).1.2
        (.ok ("", [])) (fun _ => [])).type ≠ "Block" := by
  have hm : maxNonFluentProb id2labelEx probsEx = 7 / 20 := by
    norm_num [maxNonFluentProb, id2labelEx, probsEx, List.range,
      List.range.loop, List.filter, labelContains, lowerStr, containsSeq,
      leadsWith, List.foldl]
  have ha : argmaxPair probsEx = (3, 7 / 20) := by
    norm_num [probsEx, argmaxPair, argmaxAux]
  have hl : (predict_file id2labelEx (fun _ => probsEx) [0]).1.1 =
      "3_repetition" := by
    simp [predict_file, ha, id2labelEx]
  refine ⟨by rw [hm]; norm_num, ?_, ?_⟩ <;> rw [hl] <;> decide

/-- C1 (amended): there is no 0.45 minimum-confidence floor: even when
every non-Fluent probability is below 0.45, the type reported by
`/analyze_audio` is derived from the arg-max winner's label alone
(via `stutterTypeOf`), not defaulted to Block. -/
theorem c1_no_low_confidence_block_fallback :
    ∀ (id2label : Nat → String) (modelProbs : List ℚ → List ℚ)
      (audio : List ℚ) (stt : Except Unit (String × List Word))
      (g2pf : String → List String),
      maxNonFluentProb id2label (modelProbs (audio.take (16000 * 3))) < 9 / 20 →
      (analyzeAudioBody (predict_file id2label modelProbs audio).1.1
          (predict_file id2label modelProbs audio).1.2 stt g2pf).type =
        stutterTypeOf
          (id2label (argmaxPair (modelProbs (audio.take (16000 * 3)))).1) :=
  fun _ _ _ _ _ _ => rfl

/-- Witness for `c1_no_low_confidence_block_fallback` at the concrete
distribution `probsEx`, whose non-Fluent maximum 0.35 is below the
floor. -/
theorem c1_no_low_confidence_block_fallback_witness :
    maxNonFluentProb id2labelEx probsEx < 9 / 20 ∧
    (analyzeAudioBody (predict_file id2labelEx (fun _ => probsEx) [0]).1.1
        (predict_file id2labelEx (fun _ => probsEx) [0]).1.2
        (.ok ("", [])) (fun _ => [])).type =
      stutterTypeOf (id2labelEx (argmaxPair probsEx).1) := by
  have hm : maxNonFluentProb id2labelEx probsEx < 9 / 20 := by
    norm_num [maxNonFluentProb, id2labelEx, probsEx, List.range,
      List.range.loop, List.filter, labelContains, lowerStr, containsSeq,
      leadsWith, List.foldl]
  exact ⟨hm,
    c1_no_low_confidence_block_fallback id2labelEx (fun _ => probsEx) [0]
      (.ok ("", [])) (fun _ => []) (by simpa using hm)⟩

/-- C2 counterexample: a 4-second clip (64000 samples at 16 kHz).  The
claim predicts ⌊(4−3)/0.5⌋+1 = 3 classification calls over sliding
windows; the code performs exactly one call (on the input truncated to
3 s) — there is no sliding-window scan. -/
theorem c2_counterexample :
    clipDurationSec (List.replicate 64000 (0 : ℚ)) = 4 ∧
    (3 : ℚ) ≤ 4 ∧
    (⌊((4 : ℚ) - 3) / (1 / 2)⌋ + 1 : ℤ) = 3 ∧
    (predict_file id2labelEx (fun _ => probsEx)
        (List.replicate 64000 (0 : ℚ))).2 = 1 ∧
    (1 : ℤ) ≠ 3 := by
  refine ⟨?_, by norm_num, ?_, rfl, by norm_num⟩
  · unfold clipDurationSec
    rw [List.length_replicate]
    norm_num
  · norm_num

/-- C2 (amended): for every clip — of any duration — `predict_file`
invokes the model exactly once, on the input truncated to the first
3 seconds (48000 samples); no window scan or hotspot selection
exists. -/
theorem c2_single_classification_call :
    ∀ (id2label : Nat → String) (modelProbs : List ℚ → List ℚ)
      (audio : List ℚ),
      (predict_file id2label modelProbs audio).2 = 1 ∧
      (predict_file id2label modelProbs audio).1 =
        (id2label (argmaxPair (modelProbs (audio.take (16000 * 3)))).1,
          (argmaxPair (modelProbs (audio.take (16000 * 3)))).2) :=
  fun _ _ _ => ⟨rfl, rfl⟩

/-- C8 counterexample: when the classifier raises, the `/analyze_audio`
handler — whose `try` block has only a `finally` clause, no `except` —
propagates the exception instead of returning a neutral verdict. -/
theorem c8_counterexample :
    analyze_audio (.error "inference backend failure") (.ok ("", []))
      (fun _ => []) = .error "inference backend failure" := rfl

/-- C8 (amended): STT failures are absorbed (`get_google_transcript`
fails soft to an empty transcript, and the handler then returns a
normal verdict), but an inference-backend exception is not caught in
the handler and surfaces at the HTTP boundary as an error. -/
theorem c8_classifier_exception_propagates :
    ∀ (e : String) (stt : Except Unit (String × List Word))
      (g2pf : String → List String) (label : String) (score : ℚ),
      analyze_audio (.error e) stt g2pf = .error e ∧
      (∃ r, analyze_audio (.ok (label, score)) stt g2pf = .ok r) ∧
      getGoogleTranscript (.error ()) = ("", []) :=
  fun _ _ g2pf label score => ⟨rfl, ⟨analyzeAudioBody label score _ g2pf, rfl⟩, rfl⟩

/-- The fold inside `minByConf` yields an element of the scanned list
whose confidence is minimal (Python's `min` with a key). -/
theorem minByConf_foldl_spec :
    ∀ (l : List Word) (w : Word),
      (l.foldl (fun best x => if x.confidence < best.confidence then x else best) w) ∈ w :: l ∧
      ∀ x ∈ w :: l,
        (l.foldl (fun best x => if x.confidence < best.confidence then x else best) w).confidence ≤
          x.confidence := by
  intro l
  induction l with
  | nil => exact fun w => ⟨by simp, by simp⟩
  | cons y l ih =>
      intro w
      set z := if y.confidence < w.confidence then y else w with hz
      obtain ⟨hmem, hle⟩ := ih z
      have hz_mem : z ∈ w :: y :: l := by
        rw [hz]; split <;> simp
      have hz_le_w : z.confidence ≤ w.confidence := by
        rw [hz]; split
        · exact le_of_lt (by assumption)
        · exact le_refl _
      have hz_le_y : z.confidence ≤ y.confidence := by
        rw [hz]; split
        · exact le_refl _
        · exact le_of_not_lt (by assumption)
      have hfold_le_z :
          (List.foldl (fun best x => if x.confidence < best.confidence then x else best)
            z l).confidence ≤ z.confidence :=
        hle z (List.mem_cons_self _ _)
      constructor
      · simp only [List.foldl_cons, ← hz]
        rcases List.mem_cons.mp hmem with h | h
        · rw [h]; exact hz_mem
        · exact List.mem_cons.mpr (Or.inr (List.mem_cons.mpr (Or.inr h)))
      · intro x hx
        simp only [List.foldl_cons, ← hz]
        rcases List.mem_cons.mp hx with h | h
        · subst h; exact le_trans hfold_le_z hz_le_w
        · rcases List.mem_cons.mp h with h | h
          · subst h; exact le_trans hfold_le_z hz_le_y
          · exact hle x (List.mem_cons.mpr (Or.inr h))

/-- C3 counterexample: with words of confidence 0.95 then 0.9, the
globally lowest confidence 0.9 is ≥ 0.85, so the claim selects the
first word `wdA`; the code always selects the minimum-confidence word
`wdB`. -/
theorem c3_counterexample :
    (17 / 20 : ℚ) ≤ wdB.confidence ∧
    wdB.confidence ≤ wdA.confidence ∧
    culpritWord [wdA, wdB] = some wdB ∧
    wdB ≠ wdA := by
  refine ⟨?_, ?_, ?_, ?_⟩
  · norm_num [wdB]
  · norm_num [wdA, wdB]
  · norm_num [culpritWord, minByConf, List.foldl, wdA, wdB]
  · decide

/-- C3 (amended): in legacy mode the culprit word is always the word
with the globally lowest confidence (first such on ties); there is no
≥ 0.85 exception redirecting to the first word. -/
theorem c3_culprit_is_lowest_confidence :
    ∀ (w : Word) (l : List Word),
      ∃ c, culpritWord (w :: l) = some c ∧ c ∈ w :: l ∧
        ∀ x ∈ w :: l, c.confidence ≤ x.confidence := by
  intro w l
  obtain ⟨hmem, hle⟩ := minByConf_foldl_spec l w
  exact ⟨_, rfl, hmem, hle⟩

/-- Witness for `c3_culprit_is_lowest_confidence` on the concrete
two-word list. -/
theorem c3_culprit_is_lowest_confidence_witness :
    ∃ c, culpritWord [wdA, wdB] = some c ∧
      c.confidence ≤ wdA.confidence ∧ c.confidence ≤ wdB.confidence := by
  obtain ⟨c, h1, _, h3⟩ := c3_culprit_is_lowest_confidence wdA [wdB]
  exact ⟨c, h1, h3 wdA (by simp), h3 wdB (by simp)⟩

/-- C7 counterexample: two words spanning 0.7 s give a raw rate of
1200/7 ≈ 171.43 words per minute, but the code reports the value
rounded to one decimal, 171.4, so the claimed exact equality
`wpm = count/span × 60` fails. -/
theorem c7_counterexample :
    calculate_wpm [⟨"a", 0, 3 / 10, 1⟩, ⟨"b", 2 / 5, 7 / 10, 1⟩] = 857 / 5 ∧
    ((857 : ℚ) / 5) ≠ (2 : ℚ) / (7 / 10) * 60 := by
  constructor
  · norm_num [calculate_wpm, roundTo1, roundHalfEven]
  · norm_num

/-- C7 (amended): `calculate_wpm` returns 0 for fewer than two words or
a non-positive span, and otherwise the words-per-minute value rounded
to one decimal; the Turtle game rule passes exactly when the reported
wpm is strictly between 0 and 120; on the spec's worked example it
yields exactly 72 and passes. -/
theorem c7_wpm_rounded_and_game_rule :
    (∀ words : List Word, words.length < 2 → calculate_wpm words = 0) ∧
    (∀ words : List Word, 2 ≤ words.length →
      (words.getLastD default).endTime - (words.headD default).start ≤ 0 →
      calculate_wpm words = 0) ∧
    (∀ words : List Word, 2 ≤ words.length →
      0 < (words.getLastD default).endTime - (words.headD default).start →
      calculate_wpm words =
        roundTo1 ((words.length : ℚ) /
          ((words.getLastD default).endTime - (words.headD default).start) * 60)) ∧
    (∀ wpm : ℚ, turtleGamePass wpm = true ↔ (0 < wpm ∧ wpm < 120)) ∧
    calculate_wpm turtleExampleWords = 72 ∧
    turtleGamePass (calculate_wpm turtleExampleWords) = true := by
  refine ⟨?_, ?_, ?_, ?_, ?_, ?_⟩
  · intro words h
    simp [calculate_wpm, h]
  · intro words h hspan
    rw [calculate_wpm, if_neg (by omega), if_pos hspan]
  · intro words h hspan
    rw [calculate_wpm, if_neg (by omega), if_neg (by linarith)]
  · intro wpm
    simp [turtleGamePass, and_comm]
  · norm_num [turtleExampleWords, calculate_wpm, roundTo1, roundHalfEven]
  · norm_num [turtleExampleWords, calculate_wpm, roundTo1, roundHalfEven,
      turtleGamePass]

/-- Witness for `c7_wpm_rounded_and_game_rule`: the hypotheses of its
first and third clauses are discharged at concrete inputs. -/
theorem c7_wpm_rounded_and_game_rule_witness :
    calculate_wpm [] = 0 ∧
    calculate_wpm turtleExampleWords =
      roundTo1 ((3 : ℚ) / (5 / 2) * 60) := by
  constructor
  · exact c7_wpm_rounded_and_game_rule.1 [] (by simp)
  · have h := c7_wpm_rounded_and_game_rule.2.2.1 turtleExampleWords
      (by norm_num [turtleExampleWords])
      (by norm_num [turtleExampleWords])
    simpa [turtleExampleWords] using h

/-- C9 counterexample: two `/analyze/snake` invocations on
byte-identical input (identical deterministic capability results), with
no client-supplied session id, draw fresh uuids and therefore return
different `sessionId` fields while the feedback text is identical — so
a field other than the feedback message differs across the two
responses. -/
theorem c9_counterexample :
    (analyzeSnake "0_fluent" (1 / 2) 2 true true (fun _ => []) none
        (.ok ("", [])) none "u1" 0 5).sessionId ≠
      (analyzeSnake "0_fluent" (1 / 2) 2 true true (fun _ => []) none
        (.ok ("", [])) none "u2" 0 5).sessionId ∧
    (analyzeSnake "0_fluent" (1 / 2) 2 true true (fun _ => []) none
        (.ok ("", [])) none "u1" 0 5).feedback =
      (analyzeSnake "0_fluent" (1 / 2) 2 true true (fun _ => []) none
        (.ok ("", [])) none "u2" 0 5).feedback := by
  constructor
  · simp only [analyzeSnake]
    decide
  · rfl

/-- C9 (amended): on byte-identical input (identical deterministic
capability results) all Snake response fields agree across two
invocations except the feedback text, the `sessionId` (which is a fresh
uuid unless the client supplied a non-empty one), and the measured
`inferenceTimeMs`; the feedback always comes from the fixed snake
phrase set. -/
theorem c9_idempotent_except_feedback_session_timing :
    ∀ (label : String) (score d : ℚ) (sus voiced : Bool)
      (g2pf : String → List String) (tp : Option String)
      (stt : Except Unit (String × List Word)) (sf : Option String)
      (u1 u2 : String) (i1 i2 m1 m2 : Nat),
      (analyzeSnake label score d sus voiced g2pf tp stt sf u1 i1 m1).isStutter =
          (analyzeSnake label score d sus voiced g2pf tp stt sf u2 i2 m2).isStutter ∧
      (analyzeSnake label score d sus voiced g2pf tp stt sf u1 i1 m1).stutterType =
          (analyzeSnake label score d sus voiced g2pf tp stt sf u2 i2 m2).stutterType ∧
      (analyzeSnake label score d sus voiced g2pf tp stt sf u1 i1 m1).confidence =
          (analyzeSnake label score d sus voiced g2pf tp stt sf u2 i2 m2).confidence ∧
      (analyzeSnake label score d sus voiced g2pf tp stt sf u1 i1 m1).speech_prob =
          (analyzeSnake label score d sus voiced g2pf tp stt sf u2 i2 m2).speech_prob ∧
      (analyzeSnake label score d sus voiced g2pf tp stt sf u1 i1 m1).starsAwarded =
          (analyzeSnake label score d sus voiced g2pf tp stt sf u2 i2 m2).starsAwarded ∧
      (analyzeSnake label score d sus voiced g2pf tp stt sf u1 i1 m1).duration_sec =
          (analyzeSnake label score d sus voiced g2pf tp stt sf u2 i2 m2).duration_sec ∧
      (analyzeSnake label score d sus voiced g2pf tp stt sf u1 i1 m1).amplitude_sustained =
          (analyzeSnake label score d sus voiced g2pf tp stt sf u2 i2 m2).amplitude_sustained ∧
      (analyzeSnake label score d sus voiced g2pf tp stt sf u1 i1 m1).game_pass =
          (analyzeSnake label score d sus voiced g2pf tp stt sf u2 i2 m2).game_pass ∧
      (analyzeSnake label score d sus voiced g2pf tp stt sf u1 i1 m1).repetition_detected =
          (analyzeSnake label score d sus voiced g2pf tp stt sf u2 i2 m2).repetition_detected ∧
      (analyzeSnake label score d sus voiced g2pf tp stt sf u1 i1 m1).clinical_pass =
          (analyzeSnake label score d sus voiced g2pf tp stt sf u2 i2 m2).clinical_pass ∧
      (analyzeSnake label score d sus voiced g2pf tp stt sf u1 i1 m1).phoneme_match =
          (analyzeSnake label score d sus voiced g2pf tp stt sf u2 i2 m2).phoneme_match ∧
      (analyzeSnake label score d sus voiced g2pf tp stt sf u1 i1 m1).voiced_detected =
          (analyzeSnake label score d sus voiced g2pf tp stt sf u2 i2 m2).voiced_detected ∧
      (analyzeSnake label score d sus voiced g2pf tp stt sf u1 i1 m1).progressionConfidence =
          (analyzeSnake label score d sus voiced g2pf tp stt sf u2 i2 m2).progressionConfidence ∧
      (∀ s, sf = some s → s ≠ "" →
        (analyzeSnake label score d sus voiced g2pf tp stt sf u1 i1 m1).sessionId =
          (analyzeSnake label score d sus voiced g2pf tp stt sf u2 i2 m2).sessionId) ∧
      ((analyzeSnake label score d sus voiced g2pf tp stt sf u1 i1 m1).feedback ∈
          hitMsgs "snake" ∨
        (analyzeSnake label score d sus voiced g2pf tp stt sf u1 i1 m1).feedback =
          missMsg "snake") := by
  intro label score d sus voiced g2pf tp stt sf u1 u2 i1 i2 m1 m2
  refine ⟨rfl, rfl, rfl, rfl, rfl, rfl, rfl, rfl, rfl, rfl, rfl, rfl, rfl, ?_, ?_⟩
  · intro s hsf hs
    subst hsf
    simp [analyzeSnake, hs]
  · show getFeedback "snake" _ _ ∈ hitMsgs "snake" ∨
      getFeedback "snake" _ _ = missMsg "snake"
    rw [getFeedback]
    split
    · left
      have hlen : (hitMsgs "snake").length = 2 := by decide
      have h2 : i1 % (hitMsgs "snake").length = 0 ∨
          i1 % (hitMsgs "snake").length = 1 := by
        rw [hlen]; omega
      rcases h2 with h | h <;> rw [h] <;> decide
    · right; rfl

/-- Witness for `c9_idempotent_except_feedback_session_timing`: with a
client-supplied session id "sid" the session ids of the two invocations
agree. -/
theorem c9_idempotent_witness :
    (analyzeSnake "0_fluent" (1 / 2) 2 true true (fun _ => []) none
        (.ok ("", [])) (some "sid") "u1" 0 5).sessionId =
      (analyzeSnake "0_fluent" (1 / 2) 2 true true (fun _ => []) none
        (.ok ("", [])) (some "sid") "u2" 1 7).sessionId := by
  obtain ⟨-, -, -, -, -, -, -, -, -, -, -, -, -, hsess, -⟩ :=
    c9_idempotent_except_feedback_session_timing "0_fluent" (1 / 2) 2 true true
      (fun _ => []) none (.ok ("", [])) (some "sid") "u1" "u2" 0 1 5 7
  exact hsess "sid" rfl (by decide)

/-- Shape of every `detect_breath` scan result: either the negative
default `⟨false, 0⟩`, or a positive whose onset is the rounded RMS of a
non-silent frame of the list — the `has_silence` weaker positive
(`breath_detected = true` with onset 0 from the final return) is
unreachable. -/
theorem detectBreathLoop_shape (fd thr ms : ℚ) :
    ∀ (rms : List ℚ) (c : Nat),
      detectBreathLoop fd thr ms rms c false = ⟨false, 0⟩ ∨
      ∃ r, r ∈ rms ∧ ¬(r < thr) ∧
        detectBreathLoop fd thr ms rms c false = ⟨true, roundTo3 r⟩ := by
  intro rms
  induction rms with
  | nil => intro c; left; rfl
  | cons r rest ih =>
      intro c
      by_cases h1 : r < thr
      · rcases ih (c + 1) with h | ⟨x, hx, hxt, he⟩
        · left
          simp only [detectBreathLoop, if_pos h1]
          exact h
        · right
          refine ⟨x, List.mem_cons.mpr (Or.inr hx), hxt, ?_⟩
          simp only [detectBreathLoop, if_pos h1]
          exact he
      · by_cases h2 : 0 < c
        · by_cases h3 : ms ≤ (c : ℚ) * fd
          · right
            exact ⟨r, List.mem_cons_self _ _, h1, by
              simp only [detectBreathLoop, if_neg h1, if_pos h2, if_pos h3]⟩
          · rcases ih 0 with h | ⟨x, hx, hxt, he⟩
            · left
              simp only [detectBreathLoop, if_neg h1, if_pos h2, if_neg h3]
              exact h
            · right
              refine ⟨x, List.mem_cons.mpr (Or.inr hx), hxt, ?_⟩
              simp only [detectBreathLoop, if_neg h1, if_pos h2, if_neg h3]
              exact he
        · rcases ih 0 with h | ⟨x, hx, hxt, he⟩
          · left
            simp only [detectBreathLoop, if_neg h1, if_neg h2]
            exact h
          · right
            refine ⟨x, List.mem_cons.mpr (Or.inr hx), hxt, ?_⟩
            simp only [detectBreathLoop, if_neg h1, if_neg h2]
            exact he

/-- Soundness of the `detect_breath` scan: a positive result implies a
silent run immediately followed by a non-silent frame; with entry count
`c` the run may start before the scanned suffix (first disjunct) or lie
wholly inside it. -/
theorem detectBreathLoop_sound (fd thr ms : ℚ) :
    ∀ (rms : List ℚ) (c : Nat),
      (detectBreathLoop fd thr ms rms c false).breath_detected = true →
      (∃ s r post, rms = s ++ r :: post ∧ (∀ x ∈ s, x < thr) ∧ ¬(r < thr) ∧
        ms ≤ ((c : ℚ) + s.length) * fd ∧ 0 < c + s.length) ∨
      qualifyingTransition fd thr ms rms := by
  intro rms
  induction rms with
  | nil => intro c h; simp [detectBreathLoop] at h
  | cons r rest ih =>
      intro c hdet
      by_cases h1 : r < thr
      · rw [show detectBreathLoop fd thr ms (r :: rest) c false =
            detectBreathLoop fd thr ms rest (c + 1) false from by
          simp only [detectBreathLoop, if_pos h1]] at hdet
        rcases ih (c + 1) hdet with ⟨s, x, post, heq, hs, hx, hms, hlen⟩ | hq
        · left
          refine ⟨r :: s, x, post, by rw [heq]; rfl, ?_, hx, ?_, by simp⟩
          · intro y hy
            rcases List.mem_cons.mp hy with h | h
            · rw [h]; exact h1
            · exact hs y h
          · simp only [List.length_cons]
            push_cast
            push_cast at hms
            linarith
        · right
          obtain ⟨pre, s, x, post, heq, hs, hx, hms, hlen⟩ := hq
          exact ⟨r :: pre, s, x, post, by rw [heq]; rfl, hs, hx, hms, hlen⟩
      · by_cases h2 : 0 < c
        · by_cases h3 : ms ≤ (c : ℚ) * fd
          · left
            exact ⟨[], r, rest, rfl, by simp, h1, by simpa using h3, by simpa using h2⟩
          · rw [show detectBreathLoop fd thr ms (r :: rest) c false =
                detectBreathLoop fd thr ms rest 0 false from by
              simp only [detectBreathLoop, if_neg h1, if_pos h2, if_neg h3]] at hdet
            rcases ih 0 hdet with ⟨s, x, post, heq, hs, hx, hms, hlen⟩ | hq
            · right
              refine ⟨[r], s, x, post, by rw [heq]; rfl, hs, hx, ?_, by simpa using hlen⟩
              push_cast at hms
              linarith
            · right
              obtain ⟨pre, s, x, post, heq, hs, hx, hms, hlen⟩ := hq
              exact ⟨r :: pre, s, x, post, by rw [heq]; rfl, hs, hx, hms, hlen⟩
        · rw [show detectBreathLoop fd thr ms (r :: rest) c false =
              detectBreathLoop fd thr ms rest 0 false from by
            simp only [detectBreathLoop, if_neg h1, if_neg h2]] at hdet
          rcases ih 0 hdet with ⟨s, x, post, heq, hs, hx, hms, hlen⟩ | hq
          · right
            refine ⟨[r], s, x, post, by rw [heq]; rfl, hs, hx, ?_, by simpa using hlen⟩
            push_cast at hms
            linarith
          · right
            obtain ⟨pre, s, x, post, heq, hs, hx, hms, hlen⟩ := hq
            exact ⟨r :: pre, s, x, post, by rw [heq]; rfl, hs, hx, hms, hlen⟩

/-- Completeness of the scan over a silent run followed by a non-silent
frame: starting inside the run with carried count `c`, the scan
reports a breath. -/
theorem detectBreathLoop_complete_run (fd thr ms : ℚ) :
    ∀ (s : List ℚ) (r : ℚ) (post : List ℚ) (c : Nat),
      (∀ x ∈ s, x < thr) → ¬(r < thr) → ms ≤ ((c : ℚ) + s.length) * fd →
      0 < c + s.length →
      (detectBreathLoop fd thr ms (s ++ r :: post) c false).breath_detected = true := by
  intro s
  induction s with
  | nil =>
      intro r post c _ hr hms hc
      have hc' : 0 < c := by simpa using hc
      simp only [List.nil_append, detectBreathLoop, if_neg hr, if_pos hc',
        if_pos (show ms ≤ (c : ℚ) * fd by simpa using hms)]
  | cons y s ih =>
      intro r post c hs hr hms hc
      have hy : y < thr := hs y (List.mem_cons_self _ _)
      simp only [List.cons_append, detectBreathLoop, if_pos hy]
      refine ih r post (c + 1) (fun x hx => hs x (List.mem_cons.mpr (Or.inr hx)))
        hr ?_ (by simp only [List.length_cons] at hc; omega)
      simp only [List.length_cons] at hms
      push_cast
      push_cast at hms
      linarith

/-- Completeness of the whole scan: any silent run of sufficient length
immediately followed by non-silence makes `detect_breath` report a
breath, wherever the run sits in the clip. -/
theorem detectBreathLoop_complete (fd thr ms : ℚ) (hfd : 0 ≤ fd) :
    ∀ (pre s : List ℚ) (r : ℚ) (post : List ℚ) (c : Nat),
      (∀ x ∈ s, x < thr) → ¬(r < thr) → ms ≤ (s.length : ℚ) * fd →
      0 < s.length →
      (detectBreathLoop fd thr ms (pre ++ s ++ r :: post) c false).breath_detected = true := by
  intro pre
  induction pre with
  | nil =>
      intro s r post c hs hr hms hlen
      simp only [List.nil_append]
      refine detectBreathLoop_complete_run fd thr ms s r post c hs hr ?_ (by omega)
      have h0 : (s.length : ℚ) * fd ≤ ((c : ℚ) + s.length) * fd := by
        have : (0 : ℚ) ≤ (c : ℚ) := by positivity
        nlinarith
      linarith
  | cons p pre ih =>
      intro s r post c hs hr hms hlen
      simp only [List.cons_append]
      by_cases h1 : p < thr
      · simp only [detectBreathLoop, if_pos h1]
        exact ih s r post (c + 1) hs hr hms hlen
      · by_cases h2 : 0 < c
        · by_cases h3 : ms ≤ (c : ℚ) * fd
          · simp only [detectBreathLoop, if_neg h1, if_pos h2, if_pos h3]
          · simp only [detectBreathLoop, if_neg h1, if_pos h2, if_neg h3]
            exact ih s r post 0 hs hr hms hlen
        · simp only [detectBreathLoop, if_neg h1, if_neg h2]
          exact ih s r post 0 hs hr hms hlen

/-- C4 (amended): `detect_breath` reports a breath exactly when a
qualifying silence→onset transition exists; when none exists the result
is the negative default `⟨false, 0⟩` — even if a silent run occurred —
because the `has_silence` weaker positive is unreachable; every
positive result carries the rounded RMS of a non-silent onset frame. -/
theorem c4_breath_weaker_positive_never_fires :
    ∀ (fd : ℚ) (rms : List ℚ), 0 ≤ fd →
      (((detect_breath fd rms).breath_detected = true) ↔
        qualifyingTransition fd (1 / 100) (3 / 10) rms) ∧
      ((detect_breath fd rms).breath_detected = false →
        detect_breath fd rms = ⟨false, 0⟩) ∧
      ((detect_breath fd rms).breath_detected = true →
        ∃ r, r ∈ rms ∧ ¬(r < 1 / 100) ∧
          (detect_breath fd rms).amplitude_onset = roundTo3 r) := by
  intro fd rms hfd
  refine ⟨⟨?_, ?_⟩, ?_, ?_⟩
  · intro hdet
    rcases detectBreathLoop_sound fd (1 / 100) (3 / 10) rms 0 hdet with
      ⟨s, r, post, heq, hs, hr, hms, hlen⟩ | hq
    · exact ⟨[], s, r, post, by simpa using heq, hs, hr, by simpa using hms,
        by simpa using hlen⟩
    · exact hq
  · rintro ⟨pre, s, r, post, heq, hs, hr, hms, hlen⟩
    rw [detect_breath, heq]
    exact detectBreathLoop_complete fd (1 / 100) (3 / 10) hfd pre s r post 0
      hs hr hms hlen
  · intro hfalse
    rcases detectBreathLoop_shape fd (1 / 100) (3 / 10) rms 0 with h | ⟨r, hmem, hr, h⟩
    · exact h
    · rw [detect_breath] at hfalse
      rw [h] at hfalse
      simp at hfalse
  · intro hdet
    rcases detectBreathLoop_shape fd (1 / 100) (3 / 10) rms 0 with h | ⟨r, hmem, hr, h⟩
    · rw [detect_breath] at hdet
      rw [h] at hdet
      simp at hdet
    · exact ⟨r, hmem, hr, by rw [detect_breath, h]⟩

/-- Witness for `c4_breath_weaker_positive_never_fires`: a 0.4-second
silent run followed by a loud frame is detected as a breath. -/
theorem c4_breath_witness :
    (0 : ℚ) ≤ 1 / 10 ∧
    (detect_breath (1 / 10)
        [1 / 200, 1 / 200, 1 / 200, 1 / 200, 1 / 2]).breath_detected = true := by
  refine ⟨by norm_num, ?_⟩
  refine ((c4_breath_weaker_positive_never_fires (1 / 10) _ (by norm_num)).1).mpr ?_
  refine ⟨[], [1 / 200, 1 / 200, 1 / 200, 1 / 200], 1 / 2, [], rfl, ?_,
    by norm_num, by norm_num, by norm_num⟩
  intro x hx
  simp only [List.mem_cons, List.not_mem_nil, or_false] at hx
  rcases hx with h | h | h | h <;> rw [h] <;> norm_num

/-- C4 counterexample: in the clip with RMS frames
`[0.5, 0.005, 0.005, 0.005, 0.005]` (frame duration 0.1 s) a silent run
of 0.4 s ≥ 0.3 s occurred but is never followed by non-silence — the
claim's weaker positive demands `breath_detected = true`, while the code
returns the negative default. -/
theorem c4_counterexample :
    (∀ x ∈ [(1 / 200 : ℚ), 1 / 200, 1 / 200, 1 / 200], x < 1 / 100) ∧
    ((3 : ℚ) / 10 ≤ (4 : ℚ) * (1 / 10)) ∧
    ¬ qualifyingTransition (1 / 10) (1 / 100) (3 / 10)
        [1 / 2, 1 / 200, 1 / 200, 1 / 200, 1 / 200] ∧
    detect_breath (1 / 10) [1 / 2, 1 / 200, 1 / 200, 1 / 200, 1 / 200] =
      ⟨false, 0⟩ := by
  refine ⟨?_, by norm_num, ?_, ?_⟩
  · intro x hx
    simp only [List.mem_cons, List.not_mem_nil, or_false] at hx
    rcases hx with h | h | h | h <;> rw [h] <;> norm_num
  · rintro ⟨pre, s, r, post, heq, hs, hr, hms, hlen⟩
    cases pre with
    | nil =>
        cases s with
        | nil => simp at hlen
        | cons y s' =>
            simp only [List.nil_append, List.cons_append] at heq
            injection heq with h1 _
            have := hs y (List.mem_cons_self _ _)
            rw [← h1] at this
            norm_num at this
    | cons p pre' =>
        simp only [List.cons_append] at heq
        injection heq with _ h2
        have hrmem : r ∈ pre' ++ s ++ r :: post := by simp
        rw [← h2] at hrmem
        have hr' : r = 1 / 200 := by
          simp only [List.mem_cons, List.not_mem_nil, or_false] at hrmem
          rcases hrmem with h | h | h | h <;> exact h
        rw [hr'] at hr
        norm_num at hr
  · norm_num [detect_breath, detectBreathLoop]

end StamFree
